import Mathlib

/-!
Verification of the Singleton repository: a policy-based singleton
coordinator (CoreSingleton) parameterized by an allocation strategy, a
disposal strategy and a synchronization strategy.

The embedding below models the repository sources:
  * include/core_singleton.hpp   (CoreSingleton::GetInstance, DestroyInstance,
                                  the static members instance_ptr_ and
                                  was_destroyed_)
  * include/disposal_strategy.hpp (StandardDisposalStrategy, ImmortalStrategy,
                                  ResurrectionStrategy)
  * include/allocation_strategy.hpp (NewAllocationStrategy,
                                  RawMemoryAllocationStrategy,
                                  SmartPointerAllocationStrategy)
  * include/sync_strategy.hpp    (NoSynchronizationStrategy,
                                  MutexSynchronizationStrategy,
                                  AtomicSynchronizationStrategy,
                                  ThreadLocalStrategy)

Instances are identified by the natural number handed out by the allocation
step (a fresh id per construction), so pointer identity becomes equality of
these ids.  C++ exceptions become an Except result; the scoped SyncGuard and
the calls into the policies are recorded in an event trace so that ordering
and exception-safety statements can be made precise.
-/

namespace Pattern

/-- Errors that can propagate out of GetInstance: std bad_alloc thrown by
RawMemoryAllocationStrategy::Allocate (allocation_strategy.hpp line 53) or by
the new expression, and the runtime_error thrown by
StandardDisposalStrategy::HandleDeadInstance (disposal_strategy.hpp line 33). -/
inductive SingletonError
  | allocationExhausted
  | deadInstanceAccessed
deriving DecidableEq, Repr

/-- The three disposal strategies of disposal_strategy.hpp. -/
inductive DisposalKind
  | standard
  | immortal
  | resurrection
deriving DecidableEq, Repr

/-- DisposeStrat::HandleDeadInstance.  StandardDisposalStrategy throws a
runtime_error (disposal_strategy.hpp lines 32-34); ImmortalStrategy and
ResurrectionStrategy have empty bodies (lines 56-58 and 80-82). -/
def HandleDeadInstance : DisposalKind → Except SingletonError Unit
  | .standard => .error .deadInstanceAccessed
  | .immortal => .ok ()
  | .resurrection => .ok ()

/-- Whether DisposeStrat::RegisterForCleanup actually registers the callback
with atexit.  Standard and Resurrection call std atexit (disposal_strategy.hpp
lines 23-25 and 73-75); Immortal has an empty body (lines 49-51). -/
def registersCleanup : DisposalKind → Bool
  | .standard => true
  | .immortal => false
  | .resurrection => true

/-- Observable events of one coordinator operation, used to state ordering
and guard-balancing properties. -/
inductive Event
  | acquireGuard
  | releaseGuard
  | handleDead
  | clearFlag
  | allocAttempt
  | allocStore (p : Nat)
  | registerCleanup
  | deallocate (p : Option Nat)
  | clearSlot
  | setDestroyed
deriving DecidableEq, Repr

/-- The static state of one CoreSingleton instantiation
(core_singleton.hpp lines 74-76) together with bookkeeping that makes the
claims observable: nextId hands out fresh instance identities, allocCount
counts successful allocations, liveCount counts constructed-and-not-yet-
destroyed payload objects, and cleanupRegistered records whether a teardown
callback has been handed to atexit. -/
structure SingletonState where
  instance_ptr_ : Option Nat
  was_destroyed_ : Bool
  nextId : Nat
  allocCount : Nat
  liveCount : Nat
  cleanupRegistered : Bool
deriving DecidableEq, Repr

/-- The state of a freshly started program: null instance pointer, clear
destroyed flag (core_singleton.hpp lines 75-76 initial values). -/
def freshState : SingletonState :=
  { instance_ptr_ := none
    was_destroyed_ := false
    nextId := 0
    allocCount := 0
    liveCount := 0
    cleanupRegistered := false }

/-- The tail of the guarded creation path of GetInstance
(core_singleton.hpp lines 53-57): AllocStrat::Allocate, store into
instance_ptr_, then DisposeStrat::RegisterForCleanup.  The allocOk flag is
whether the allocation request succeeds in this call; on failure the
strategies throw (allocation_strategy.hpp line 53) and nothing is stored. -/
def allocateInto (d : DisposalKind) (allocOk : Bool) (s : SingletonState) :
    Except SingletonError Nat × SingletonState × List Event :=
  if allocOk then
    let p := s.nextId
    let s1 : SingletonState :=
      { s with
        instance_ptr_ := some p
        nextId := p + 1
        allocCount := s.allocCount + 1
        liveCount := s.liveCount + 1 }
    let s2 : SingletonState :=
      { s1 with cleanupRegistered := s1.cleanupRegistered || registersCleanup d }
    (.ok p, s2, [.allocAttempt, .allocStore p, .registerCleanup])
  else
    (.error .allocationExhausted, s, [.allocAttempt])

/-- CoreSingleton::GetInstance (core_singleton.hpp lines 39-61) for one
sequential call.  The unguarded fast check returns the existing instance;
otherwise the SyncGuard is acquired, the slot is re-checked (in a sequential
step the re-check observes the same value as the fast check), a set
was_destroyed_ flag routes through DisposeStrat::HandleDeadInstance followed
by the flag-clearing assignment, then allocation and cleanup registration
run.  A throw from the handler or the allocator propagates with the scoped
guard released and without executing the statements after the throw. -/
def GetInstance (d : DisposalKind) (allocOk : Bool) (s : SingletonState) :
    Except SingletonError Nat × SingletonState × List Event :=
  match s.instance_ptr_ with
  | some p => (.ok p, s, [])
  | none =>
    if s.was_destroyed_ then
      match HandleDeadInstance d with
      | .error e => (.error e, s, [.acquireGuard, .handleDead, .releaseGuard])
      | .ok _ =>
        let s1 : SingletonState := { s with was_destroyed_ := false }
        let r := allocateInto d allocOk s1
        (r.1, r.2.1, .acquireGuard :: .handleDead :: .clearFlag :: r.2.2 ++ [.releaseGuard])
    else
      let r := allocateInto d allocOk s
      (r.1, r.2.1, .acquireGuard :: r.2.2 ++ [.releaseGuard])

/-- CoreSingleton::DestroyInstance (core_singleton.hpp lines 67-72): under
the scoped guard, AllocStrat::Deallocate on the current pointer, null the
pointer, set was_destroyed_.  Deallocate destroys the payload exactly when
the pointer is non-null (delete on null and the null check at
allocation_strategy.hpp line 65 are no-ops). -/
def DestroyInstance (s : SingletonState) : SingletonState × List Event :=
  ({ s with
      instance_ptr_ := none
      was_destroyed_ := true
      liveCount := if s.instance_ptr_.isSome then s.liveCount - 1 else s.liveCount },
   [.acquireGuard, .deallocate s.instance_ptr_, .clearSlot, .setDestroyed, .releaseGuard])

/-- A sequence of GetInstance calls, one Bool per call saying whether that
allocation request of that call would succeed; returns the list of call results
and the final coordinator state. -/
def runSeq (d : DisposalKind) : List Bool → SingletonState →
    List (Except SingletonError Nat) × SingletonState
  | [], s => ([], s)
  | a :: as, s =>
    let r := GetInstance d a s
    let rest := runSeq d as r.2.1
    (r.1 :: rest.1, rest.2)

/-- Process exit: the atexit machinery runs the registered callback (which is
CoreSingleton::DestroyInstance) exactly when one was registered. -/
def atExitRun (s : SingletonState) : SingletonState :=
  if s.cleanupRegistered then (DestroyInstance s).1 else s

/-- Recognizer for allocation-attempt events, used to state that a single
call never retries allocation. -/
def isAllocAttempt : Event → Bool
  | .allocAttempt => true
  | _ => false

/-- CoreSingleton instantiated with ThreadLocalStrategy, as written in
core_singleton.hpp: the static members instance_ptr_ and was_destroyed_
(lines 75-76) are ordinary statics, not thread_local, so every thread reads
and writes the same cells; ThreadLocalStrategy::SyncGuard is a no-op
(sync_strategy.hpp lines 102-106); and GetInstance never calls
ThreadLocalStrategy::GetThreadLocalInstance (sync_strategy.hpp lines
111-114), which is the only thread-local storage in the strategy.  A call
from any thread therefore performs exactly the shared-state GetInstance,
independent of the id of the calling thread. -/
def GetInstanceThreadLocal (tid : Nat) (d : DisposalKind) (allocOk : Bool)
    (s : SingletonState) : Except SingletonError Nat × SingletonState × List Event :=
  GetInstance d allocOk s

/-- Observable events of the raw-memory allocation strategy
(allocation_strategy.hpp lines 42-73). -/
inductive RawEvent
  | mallocCall (ok : Bool)
  | construct (b : Nat)
  | destruct (b : Nat)
  | freeBlock (b : Nat)
deriving DecidableEq, Repr

/-- RawMemoryAllocationStrategy::Allocate (allocation_strategy.hpp lines
47-58): request a raw block of sizeof T from std malloc (its result is the
mallocResult parameter, none on failure), throw bad_alloc when the request
fails, otherwise construct the payload in place in the returned block and
return a pointer to it (the block id). -/
def RawAllocate (mallocResult : Option Nat) :
    Except SingletonError Nat × List RawEvent :=
  match mallocResult with
  | none => (.error .allocationExhausted, [.mallocCall false])
  | some b => (.ok b, [.mallocCall true, .construct b])

/-- RawMemoryAllocationStrategy::Deallocate (allocation_strategy.hpp lines
64-72): when the pointer is non-null, invoke the payload destructor and then
free the raw block; a null pointer does nothing. -/
def RawDeallocate : Option Nat → List RawEvent
  | none => []
  | some p => [.destruct p, .freeBlock p]

/-! ## Basic path lemmas for GetInstance -/

/-- Fast path: an occupied slot is returned immediately, with no state
change and no guard acquisition (core_singleton.hpp lines 41 and 60). -/
theorem GetInstance_fast (d : DisposalKind) (a : Bool) (s : SingletonState)
    (p : Nat) (h : s.instance_ptr_ = some p) :
    GetInstance d a s = (.ok p, s, []) := by
  unfold GetInstance
  rw [h]

/-- First creation: an empty slot with a clear destroyed flag allocates a
fresh instance, stores it, and registers cleanup per the disposal policy. -/
theorem GetInstance_create (d : DisposalKind) (s : SingletonState)
    (h1 : s.instance_ptr_ = none) (h2 : s.was_destroyed_ = false) :
    GetInstance d true s =
      (.ok s.nextId,
       { s with
          instance_ptr_ := some s.nextId
          nextId := s.nextId + 1
          allocCount := s.allocCount + 1
          liveCount := s.liveCount + 1
          cleanupRegistered := s.cleanupRegistered || registersCleanup d },
       [.acquireGuard, .allocAttempt, .allocStore s.nextId, .registerCleanup,
        .releaseGuard]) := by
  unfold GetInstance
  rw [h1]
  simp [allocateInto, h2]

/-- Failed creation: when the allocation request fails on an empty slot with
a clear flag, the error propagates and the state is untouched. -/
theorem GetInstance_alloc_fail (d : DisposalKind) (s : SingletonState)
    (h1 : s.instance_ptr_ = none) (h2 : s.was_destroyed_ = false) :
    GetInstance d false s =
      (.error .allocationExhausted, s,
       [.acquireGuard, .allocAttempt, .releaseGuard]) := by
  unfold GetInstance
  rw [h1]
  simp [allocateInto, h2]

/-- Dead-instance path with a throwing handler: GetInstance propagates the
error with the guard released and with the flag-clearing and allocation
statements never executed. -/
theorem GetInstance_dead_throw (d : DisposalKind) (a : Bool) (s : SingletonState)
    (e : SingletonError) (hd : HandleDeadInstance d = .error e)
    (h1 : s.instance_ptr_ = none) (h2 : s.was_destroyed_ = true) :
    GetInstance d a s =
      (.error e, s, [.acquireGuard, .handleDead, .releaseGuard]) := by
  unfold GetInstance
  rw [h1, h2, hd]
  rfl

/-- Revival path: when the dead-instance handler returns (immortal or
resurrection disposal), the destroyed flag is cleared and a fresh instance
is allocated. -/
theorem GetInstance_revive (d : DisposalKind) (s : SingletonState)
    (hok : HandleDeadInstance d = .ok ())
    (h1 : s.instance_ptr_ = none) (h2 : s.was_destroyed_ = true) :
    GetInstance d true s =
      (.ok s.nextId,
       { s with
          instance_ptr_ := some s.nextId
          was_destroyed_ := false
          nextId := s.nextId + 1
          allocCount := s.allocCount + 1
          liveCount := s.liveCount + 1
          cleanupRegistered := s.cleanupRegistered || registersCleanup d },
       [.acquireGuard, .handleDead, .clearFlag, .allocAttempt,
        .allocStore s.nextId, .registerCleanup, .releaseGuard]) := by
  unfold GetInstance
  rw [h1, h2, hok]
  simp [allocateInto]

/-- Revival path with a failing allocation: the handler has already cleared
the destroyed flag when the allocator throws, so the error propagates from a
state with an empty slot and a clear flag. -/
theorem GetInstance_revive_alloc_fail (d : DisposalKind) (s : SingletonState)
    (hok : HandleDeadInstance d = .ok ())
    (h1 : s.instance_ptr_ = none) (h2 : s.was_destroyed_ = true) :
    GetInstance d false s =
      (.error .allocationExhausted, { s with was_destroyed_ := false },
       [.acquireGuard, .handleDead, .clearFlag, .allocAttempt, .releaseGuard]) := by
  unfold GetInstance
  rw [h1, h2, hok]
  simp [allocateInto]

/-- A run whose every call hits the fast path: results repeat the held
identity and the state never changes. -/
theorem runSeq_stable (d : DisposalKind) (bs : List Bool) (s : SingletonState)
    (p : Nat) (h : s.instance_ptr_ = some p) :
    runSeq d bs s = (List.replicate bs.length (Except.ok p), s) := by
  induction bs with
  | nil => simp [runSeq]
  | cons a as ih => simp [runSeq, GetInstance_fast d a s p h, ih, List.replicate_succ]

/-- Under immortal disposal no run of GetInstance calls ever registers a
cleanup callback or sets the destroyed flag. -/
theorem immortal_run_invariant (bs : List Bool) (s : SingletonState)
    (hreg : s.cleanupRegistered = false) (hflag : s.was_destroyed_ = false) :
    (runSeq .immortal bs s).2.cleanupRegistered = false
    ∧ (runSeq .immortal bs s).2.was_destroyed_ = false := by
  induction bs generalizing s with
  | nil => exact ⟨hreg, hflag⟩
  | cons a as ih =>
    cases hslot : s.instance_ptr_ with
    | some p =>
      simp only [runSeq, GetInstance_fast .immortal a s p hslot]
      exact ih s hreg hflag
    | none =>
      cases a with
      | true =>
        simp only [runSeq, GetInstance_create .immortal s hslot hflag]
        apply ih
        · simp [hreg, registersCleanup]
        · exact hflag
      | false =>
        simp only [runSeq, GetInstance_alloc_fail .immortal s hslot hflag]
        exact ih s hreg hflag

/-- Any run of standard-disposal GetInstance calls started right after
teardown keeps erroring and never changes the state. -/
theorem standard_dead_run (bs : List Bool) (t : SingletonState)
    (h1 : t.instance_ptr_ = none) (h2 : t.was_destroyed_ = true) :
    runSeq .standard bs t =
      (List.replicate bs.length (Except.error SingletonError.deadInstanceAccessed), t) := by
  induction bs with
  | nil => simp [runSeq]
  | cons a as ih =>
    simp only [runSeq, GetInstance_dead_throw .standard a t _ rfl h1 h2, ih,
      List.length_cons, List.replicate_succ]

/-! ## The claims -/

/-- C1: in a sequential execution with no intervening teardown, for any
disposal policy, every one of n consecutive GetInstance calls on a fresh
coordinator returns the same instance identity (the first call creates it,
identity 0), exactly one allocation is performed across all calls, and the
slot holds that same identity afterwards. -/
theorem claim1_repeated_access_unique (d : DisposalKind) (n : Nat) (h : 1 ≤ n) :
    (runSeq d (List.replicate n true) freshState).1 = List.replicate n (Except.ok 0)
    ∧ (runSeq d (List.replicate n true) freshState).2.allocCount = 1
    ∧ (runSeq d (List.replicate n true) freshState).2.instance_ptr_ = some 0 := by
  obtain ⟨m, rfl⟩ : ∃ m, n = m + 1 := ⟨n - 1, by omega⟩
  rw [List.replicate_succ]
  simp only [runSeq, GetInstance_create d freshState rfl rfl]
  rw [runSeq_stable d (List.replicate m true) _ 0 rfl]
  simp [List.replicate_succ]
  exact ⟨rfl, rfl, rfl⟩

/-- Witness for C1 at n = 2 with the default standard disposal. -/
theorem claim1_repeated_access_unique_witness :
    1 ≤ 2
    ∧ ((runSeq .standard (List.replicate 2 true) freshState).1
        = List.replicate 2 (Except.ok 0)
      ∧ (runSeq .standard (List.replicate 2 true) freshState).2.allocCount = 1
      ∧ (runSeq .standard (List.replicate 2 true) freshState).2.instance_ptr_ = some 0) :=
  ⟨by decide, claim1_repeated_access_unique .standard 2 (by decide)⟩

/-- C2: the code, evaluated at the failing input for the per-thread claim.
Two distinct threads (ids 0 and 1) each call GetInstance once on a fresh
ThreadLocalStrategy coordinator; both observe the same instance identity 0
and only one instance exists, because instance_ptr_ is an ordinary shared
static and GetThreadLocalInstance is never called: the claimed per-thread
isolation does not hold. -/
theorem claim2_threadlocal_shares_state :
    (GetInstanceThreadLocal 0 .immortal true freshState).1 = .ok 0
    ∧ (GetInstanceThreadLocal 1 .immortal true
        (GetInstanceThreadLocal 0 .immortal true freshState).2.1).1 = .ok 0
    ∧ (GetInstanceThreadLocal 1 .immortal true
        (GetInstanceThreadLocal 0 .immortal true freshState).2.1).2.1.allocCount = 1 :=
  ⟨rfl, rfl, rfl⟩

/-- C3: after teardown of a standard-disposal coordinator, the next
GetInstance raises the dead-instance error rather than silently recreating:
the error is the result of the call (never swallowed) and the state is exactly
the post-teardown state, so no allocation happened. -/
theorem claim3_standard_dead_access_raises (s : SingletonState) (a : Bool) :
    (GetInstance .standard a (DestroyInstance s).1).1
      = .error .deadInstanceAccessed
    ∧ (GetInstance .standard a (DestroyInstance s).1).2.1 = (DestroyInstance s).1 := by
  rw [GetInstance_dead_throw .standard a _ _ rfl rfl rfl]
  exact ⟨rfl, rfl⟩

/-- C4: after teardown of a resurrection-disposal coordinator, the next
GetInstance succeeds without error and returns a newly allocated live
instance: the handler is a no-op, the destroyed flag ends up cleared, the
slot holds the new instance, and the allocation and live-instance counts
each grow by one. -/
theorem claim4_resurrection_recreates (s : SingletonState) :
    (GetInstance .resurrection true (DestroyInstance s).1).1 = .ok s.nextId
    ∧ (GetInstance .resurrection true (DestroyInstance s).1).2.1.was_destroyed_ = false
    ∧ (GetInstance .resurrection true (DestroyInstance s).1).2.1.instance_ptr_
        = some s.nextId
    ∧ (GetInstance .resurrection true (DestroyInstance s).1).2.1.allocCount
        = s.allocCount + 1
    ∧ (GetInstance .resurrection true (DestroyInstance s).1).2.1.liveCount
        = (DestroyInstance s).1.liveCount + 1
    ∧ HandleDeadInstance .resurrection = .ok () := by
  rw [GetInstance_revive .resurrection _ rfl rfl rfl]
  exact ⟨rfl, rfl, rfl, rfl, rfl, rfl⟩

/-- C5: an immortal-disposal coordinator never registers a teardown action,
so across any sequence of GetInstance calls no cleanup is ever registered,
the destroyed flag never becomes set, and process exit runs no destruction
(the state is unchanged by the atexit machinery). -/
theorem claim5_immortal_never_destroys (bs : List Bool) :
    registersCleanup .immortal = false
    ∧ (runSeq .immortal bs freshState).2.cleanupRegistered = false
    ∧ (runSeq .immortal bs freshState).2.was_destroyed_ = false
    ∧ atExitRun (runSeq .immortal bs freshState).2 = (runSeq .immortal bs freshState).2 := by
  obtain ⟨h1, h2⟩ := immortal_run_invariant bs freshState rfl rfl
  exact ⟨rfl, h1, h2, by simp [atExitRun, h1]⟩

/-- C6: whenever GetInstance propagates an error, the slot is left empty,
no allocation survived the call, the call attempted allocation at most once
(no retry), and after an allocation-exhaustion failure a subsequent call
whose allocation succeeds creates an instance from the clean state. -/
theorem claim6_error_leaves_slot_empty (d : DisposalKind) (a : Bool)
    (s : SingletonState) (e : SingletonError)
    (h : (GetInstance d a s).1 = .error e) :
    (GetInstance d a s).2.1.instance_ptr_ = none
    ∧ (GetInstance d a s).2.1.allocCount = s.allocCount
    ∧ ((GetInstance d a s).2.2.filter isAllocAttempt).length ≤ 1
    ∧ (e = .allocationExhausted →
        (GetInstance d true (GetInstance d a s).2.1).1
          = .ok (GetInstance d a s).2.1.nextId) := by
  cases hslot : s.instance_ptr_ with
  | some p =>
    rw [GetInstance_fast d a s p hslot] at h
    exact absurd h (by simp)
  | none =>
    cases hflag : s.was_destroyed_ with
    | false =>
      cases a with
      | true =>
        rw [GetInstance_create d s hslot hflag] at h
        exact absurd h (by simp)
      | false =>
        simp only [GetInstance_alloc_fail d s hslot hflag]
        refine ⟨hslot, by trivial, by simp [isAllocAttempt], fun _ => ?_⟩
        rw [GetInstance_create d s hslot hflag]
    | true =>
      cases hd : HandleDeadInstance d with
      | error e' =>
        have hde : e' = SingletonError.deadInstanceAccessed := by
          cases d <;> simp [HandleDeadInstance] at hd
          exact hd.symm
        subst hde
        rw [GetInstance_dead_throw d a s _ hd hslot hflag] at h
        have he : Except.error SingletonError.deadInstanceAccessed
            = (Except.error e : Except SingletonError Nat) := h
        injection he with he2
        subst he2
        simp only [GetInstance_dead_throw d a s _ hd hslot hflag]
        refine ⟨hslot, by trivial, by simp [isAllocAttempt], fun hc => ?_⟩
        exact absurd hc (by simp)
      | ok u =>
        cases u
        cases a with
        | true =>
          rw [GetInstance_revive d s hd hslot hflag] at h
          exact absurd h (by simp)
        | false =>
          simp only [GetInstance_revive_alloc_fail d s hd hslot hflag]
          refine ⟨hslot, by trivial, by simp [isAllocAttempt], fun _ => ?_⟩
          rw [GetInstance_create d { s with was_destroyed_ := false } hslot rfl]

/-- Witness for C6: allocation exhaustion on a fresh standard coordinator. -/
theorem claim6_error_leaves_slot_empty_witness :
    (GetInstance .standard false freshState).1
      = .error SingletonError.allocationExhausted
    ∧ ((GetInstance .standard false freshState).2.1.instance_ptr_ = none
      ∧ (GetInstance .standard false freshState).2.1.allocCount
          = freshState.allocCount
      ∧ ((GetInstance .standard false freshState).2.2.filter isAllocAttempt).length ≤ 1
      ∧ (SingletonError.allocationExhausted = SingletonError.allocationExhausted →
          (GetInstance .standard true (GetInstance .standard false freshState).2.1).1
            = .ok (GetInstance .standard false freshState).2.1.nextId)) :=
  ⟨rfl, claim6_error_leaves_slot_empty .standard false freshState
    SingletonError.allocationExhausted rfl⟩

/-- C7: the raw-memory allocation strategy raises the out-of-memory error
exactly when the raw memory request fails; on success it constructs the
payload in place in the obtained block and returns a pointer to that block;
and its deallocation runs the payload destructor and then frees the block,
in that order. -/
theorem claim7_raw_allocation (m : Option Nat) (p : Nat) :
    ((RawAllocate m).1 = .error .allocationExhausted ↔ m = none)
    ∧ (m = some p → (RawAllocate m).1 = .ok p
        ∧ (RawAllocate m).2 = [.mallocCall true, .construct p])
    ∧ RawDeallocate (some p) = [.destruct p, .freeBlock p] := by
  refine ⟨?_, ?_, rfl⟩
  · cases m <;> simp [RawAllocate]
  · rintro rfl
    exact ⟨rfl, rfl⟩

/-- Witness for C7 at a successful raw-memory request (block 4). -/
theorem claim7_raw_allocation_witness :
    (some 4 = some 4)
    ∧ ((RawAllocate (some 4)).1 = .ok 4
      ∧ (RawAllocate (some 4)).2 = [.mallocCall true, .construct 4]) :=
  ⟨rfl, (claim7_raw_allocation (some 4) 4).2.1 rfl⟩

/-- C8: the destroy routine performs exactly the guarded teardown sequence:
acquire the guard, hand the held pointer to Deallocate of the allocation
policy, clear the slot, set the destroyed flag, release the guard;
and it touches nothing else of the coordinator state (identity counter,
allocation count and cleanup registration are unchanged). -/
theorem claim8_destroy_routine_exact (s : SingletonState) :
    (DestroyInstance s).2 =
      [Event.acquireGuard, Event.deallocate s.instance_ptr_, Event.clearSlot,
       Event.setDestroyed, Event.releaseGuard]
    ∧ (DestroyInstance s).1.instance_ptr_ = none
    ∧ (DestroyInstance s).1.was_destroyed_ = true
    ∧ (DestroyInstance s).1.nextId = s.nextId
    ∧ (DestroyInstance s).1.allocCount = s.allocCount
    ∧ (DestroyInstance s).1.cleanupRegistered = s.cleanupRegistered :=
  ⟨rfl, rfl, rfl, rfl, rfl, rfl⟩

/-! ## Concurrent model of the double-checked access protocol

Under MutexSynchronizationStrategy the SyncGuard constructor locks a mutex
and the destructor unlocks it (sync_strategy.hpp lines 41-48); under
AtomicSynchronizationStrategy the constructor spins on an atomic flag until
it is claimed and the destructor clears it (lines 67-84).  Both provide
mutual exclusion over the guarded section, modelled as a single lock bit
whose acquisition step is enabled only while the bit is clear.  Each thread
runs the statements of GetInstance (core_singleton.hpp lines 39-61) as
atomic steps interleaved with the other threads: the unguarded fast check
(line 41), guard acquisition (line 43), the re-check under the guard
(line 46), allocation and store (line 54), guard release (end of the guard
scope) and the final read returning the pointee (line 60).  The scenario of
the claim has every thread call GetInstance once on a live program, so
teardown never runs and was_destroyed_ stays false; the dead-instance
branch (lines 48-51) is consequently never entered. -/

/-- Program counter of one thread inside GetInstance. -/
inductive PC
  | checkFast
  | acquireLock
  | recheck
  | allocate
  | releaseLock
  | retRead
  | done
deriving DecidableEq, Repr

/-- One thread: its position in GetInstance and the reference it returned. -/
structure TState where
  pc : PC
  result : Option Nat
deriving DecidableEq, Repr

/-- Shared state of a concurrent run: the coordinator statics, the guard
bit, the allocation bookkeeping, and all thread states. -/
structure CState where
  slot : Option Nat
  lockHeld : Bool
  wasDestroyed : Bool
  nextId : Nat
  allocCount : Nat
  threads : List TState
deriving DecidableEq, Repr

/-- Initial state: empty slot, guard free, flag clear, n threads about to
execute the fast check. -/
def initCState (n : Nat) : CState :=
  { slot := none
    lockHeld := false
    wasDestroyed := false
    nextId := 0
    allocCount := 0
    threads := List.replicate n { pc := .checkFast, result := none } }

/-- Interleaving semantics: one atomic statement of GetInstance executed by
one thread.  Guard acquisition is enabled only while the lock bit is clear
(the mutex blocks, the atomic flag spins); the re-check branch with a set
destroyed flag does not occur in this scenario, so the step reading the
flag requires it clear, matching the if at core_singleton.hpp line 48. -/
inductive Step : CState → CState → Prop
  | fastSome (s : CState) (i : Nat) (t : TState) (p : Nat)
      (ht : s.threads.get? i = some t) (hpc : t.pc = .checkFast)
      (hs : s.slot = some p) :
      Step s { s with threads := s.threads.set i { t with pc := .retRead } }
  | fastNone (s : CState) (i : Nat) (t : TState)
      (ht : s.threads.get? i = some t) (hpc : t.pc = .checkFast)
      (hs : s.slot = none) :
      Step s { s with threads := s.threads.set i { t with pc := .acquireLock } }
  | lockAcq (s : CState) (i : Nat) (t : TState)
      (ht : s.threads.get? i = some t) (hpc : t.pc = .acquireLock)
      (hl : s.lockHeld = false) :
      Step s { s with lockHeld := true, threads := s.threads.set i { t with pc := .recheck } }
  | recheckSome (s : CState) (i : Nat) (t : TState) (p : Nat)
      (ht : s.threads.get? i = some t) (hpc : t.pc = .recheck)
      (hs : s.slot = some p) :
      Step s { s with threads := s.threads.set i { t with pc := .releaseLock } }
  | recheckNone (s : CState) (i : Nat) (t : TState)
      (ht : s.threads.get? i = some t) (hpc : t.pc = .recheck)
      (hs : s.slot = none) (hd : s.wasDestroyed = false) :
      Step s { s with threads := s.threads.set i { t with pc := .allocate } }
  | allocStore (s : CState) (i : Nat) (t : TState)
      (ht : s.threads.get? i = some t) (hpc : t.pc = .allocate) :
      Step s { s with
        slot := some s.nextId
        nextId := s.nextId + 1
        allocCount := s.allocCount + 1
        threads := s.threads.set i { t with pc := .releaseLock } }
  | lockRel (s : CState) (i : Nat) (t : TState)
      (ht : s.threads.get? i = some t) (hpc : t.pc = .releaseLock) :
      Step s { s with lockHeld := false, threads := s.threads.set i { t with pc := .retRead } }
  | retread (s : CState) (i : Nat) (t : TState) (p : Nat)
      (ht : s.threads.get? i = some t) (hpc : t.pc = .retRead)
      (hs : s.slot = some p) :
      Step s { s with threads := s.threads.set i { pc := .done, result := some p } }

/-- States reachable by interleaving n threads each running GetInstance. -/
def Reachable (n : Nat) (s : CState) : Prop :=
  Relation.ReflTransGen Step (initCState n) s

/-- Whether a program position is inside the guarded critical section. -/
def inCS : PC → Bool
  | .recheck => true
  | .allocate => true
  | .releaseLock => true
  | _ => false

/-- The inductive invariant of the protocol: memory bookkeeping is in one of
two phases (nothing allocated, or exactly instance 0 allocated); the flag is
never set; at most one thread is in the critical section and only while the
lock is held; a thread about to allocate has re-checked an empty slot; a
thread about to release or to read the final result can only see the filled
slot; finished threads returned instance 0. -/
structure Inv (s : CState) : Prop where
  mem : (s.slot = none ∧ s.allocCount = 0 ∧ s.nextId = 0) ∨
        (s.slot = some 0 ∧ s.allocCount = 1 ∧ s.nextId = 1)
  nodead : s.wasDestroyed = false
  mutex : ∀ i j ti tj, s.threads.get? i = some ti → s.threads.get? j = some tj →
      inCS ti.pc = true → inCS tj.pc = true → i = j
  lockfree : s.lockHeld = false → ∀ i ti, s.threads.get? i = some ti → inCS ti.pc = false
  allocNone : ∀ i ti, s.threads.get? i = some ti → ti.pc = .allocate → s.slot = none
  relSome : ∀ i ti, s.threads.get? i = some ti → ti.pc = .releaseLock → s.slot = some 0
  retSome : ∀ i ti, s.threads.get? i = some ti → ti.pc = .retRead → s.slot = some 0
  doneRes : ∀ i ti, s.threads.get? i = some ti → ti.pc = .done →
      s.slot = some 0 ∧ ti.result = some 0

/-- Reading an updated thread list: position j either is the updated slot i
or is untouched. -/
theorem get?_set_cases {α : Type} {l : List α} {i j : Nat} {b c : α}
    (hj : (l.set i b).get? j = some c) :
    (j = i ∧ c = b ∧ i < l.length) ∨ (j ≠ i ∧ l.get? j = some c) := by
  by_cases h : j = i
  · subst h
    have hlen : j < l.length := by
      by_contra hge
      have hnone : (l.set j b).get? j = none := by
        rw [List.get?_eq_none, List.length_set]
        omega
      rw [hnone] at hj
      cases hj
    rw [List.get?_set_eq_of_lt b hlen] at hj
    injection hj with h2
    exact Or.inl ⟨rfl, h2.symm, hlen⟩
  · right
    refine ⟨h, ?_⟩
    rwa [List.get?_set_ne b l (fun he => h he.symm)] at hj

/-- The initial state satisfies the invariant. -/
theorem Inv_init (n : Nat) : Inv (initCState n) := by
  have hth : ∀ i ti, (initCState n).threads.get? i = some ti →
      ti = ({ pc := .checkFast, result := none } : TState) := by
    intro i ti hi
    exact List.eq_of_mem_replicate (List.get?_mem hi)
  constructor
  · exact Or.inl ⟨rfl, rfl, rfl⟩
  · rfl
  · intro i j ti tj hi hj hci hcj
    rw [hth i ti hi] at hci
    cases hci
  · intro _ i ti hi
    rw [hth i ti hi]
    rfl
  · intro i ti hi hpc
    rw [hth i ti hi] at hpc
    cases hpc
  · intro i ti hi hpc
    rw [hth i ti hi] at hpc
    cases hpc
  · intro i ti hi hpc
    rw [hth i ti hi] at hpc
    cases hpc
  · intro i ti hi hpc
    rw [hth i ti hi] at hpc
    cases hpc

/-- The invariant is preserved by every step of every thread. -/
theorem Inv_step (s s' : CState) (hinv : Inv s) (st : Step s s') : Inv s' := by
  cases st with
  | fastSome i t p ht hpc hsl =>
    refine ⟨hinv.mem, hinv.nodead, ?_, ?_, ?_, ?_, ?_, ?_⟩
    · intro j k tj tk hj hk hcj hck
      rcases get?_set_cases hj with ⟨rfl, rfl, -⟩ | ⟨hjne, hjold⟩
      · simp [inCS] at hcj
      · rcases get?_set_cases hk with ⟨rfl, rfl, -⟩ | ⟨hkne, hkold⟩
        · simp [inCS] at hck
        · exact hinv.mutex j k tj tk hjold hkold hcj hck
    · intro hl j tj hj
      rcases get?_set_cases hj with ⟨rfl, rfl, -⟩ | ⟨hjne, hjold⟩
      · rfl
      · exact hinv.lockfree hl j tj hjold
    · intro j tj hj hpcj
      rcases get?_set_cases hj with ⟨rfl, rfl, -⟩ | ⟨hjne, hjold⟩
      · cases hpcj
      · exact hinv.allocNone j tj hjold hpcj
    · intro j tj hj hpcj
      rcases get?_set_cases hj with ⟨rfl, rfl, -⟩ | ⟨hjne, hjold⟩
      · cases hpcj
      · exact hinv.relSome j tj hjold hpcj
    · intro j tj hj hpcj
      rcases get?_set_cases hj with ⟨rfl, rfl, -⟩ | ⟨hjne, hjold⟩
      · rcases hinv.mem with ⟨h1, -, -⟩ | ⟨h1, -, -⟩
        · rw [h1] at hsl; cases hsl
        · exact h1
      · exact hinv.retSome j tj hjold hpcj
    · intro j tj hj hpcj
      rcases get?_set_cases hj with ⟨rfl, rfl, -⟩ | ⟨hjne, hjold⟩
      · cases hpcj
      · exact hinv.doneRes j tj hjold hpcj
  | fastNone i t ht hpc hsl =>
    refine ⟨hinv.mem, hinv.nodead, ?_, ?_, ?_, ?_, ?_, ?_⟩
    · intro j k tj tk hj hk hcj hck
      rcases get?_set_cases hj with ⟨rfl, rfl, -⟩ | ⟨hjne, hjold⟩
      · simp [inCS] at hcj
      · rcases get?_set_cases hk with ⟨rfl, rfl, -⟩ | ⟨hkne, hkold⟩
        · simp [inCS] at hck
        · exact hinv.mutex j k tj tk hjold hkold hcj hck
    · intro hl j tj hj
      rcases get?_set_cases hj with ⟨rfl, rfl, -⟩ | ⟨hjne, hjold⟩
      · rfl
      · exact hinv.lockfree hl j tj hjold
    · intro j tj hj hpcj
      rcases get?_set_cases hj with ⟨rfl, rfl, -⟩ | ⟨hjne, hjold⟩
      · cases hpcj
      · exact hinv.allocNone j tj hjold hpcj
    · intro j tj hj hpcj
      rcases get?_set_cases hj with ⟨rfl, rfl, -⟩ | ⟨hjne, hjold⟩
      · cases hpcj
      · exact hinv.relSome j tj hjold hpcj
    · intro j tj hj hpcj
      rcases get?_set_cases hj with ⟨rfl, rfl, -⟩ | ⟨hjne, hjold⟩
      · cases hpcj
      · exact hinv.retSome j tj hjold hpcj
    · intro j tj hj hpcj
      rcases get?_set_cases hj with ⟨rfl, rfl, -⟩ | ⟨hjne, hjold⟩
      · cases hpcj
      · exact hinv.doneRes j tj hjold hpcj
  | lockAcq i t ht hpc hl =>
    refine ⟨hinv.mem, hinv.nodead, ?_, ?_, ?_, ?_, ?_, ?_⟩
    · intro j k tj tk hj hk hcj hck
      rcases get?_set_cases hj with ⟨rfl, rfl, -⟩ | ⟨hjne, hjold⟩
      · rcases get?_set_cases hk with ⟨rfl, rfl, -⟩ | ⟨hkne, hkold⟩
        · rfl
        · have := hinv.lockfree hl k tk hkold
          rw [this] at hck
          cases hck
      · have := hinv.lockfree hl j tj hjold
        rw [this] at hcj
        cases hcj
    · intro hl'
      exact absurd hl' (by simp)
    · intro j tj hj hpcj
      rcases get?_set_cases hj with ⟨rfl, rfl, -⟩ | ⟨hjne, hjold⟩
      · cases hpcj
      · exact hinv.allocNone j tj hjold hpcj
    · intro j tj hj hpcj
      rcases get?_set_cases hj with ⟨rfl, rfl, -⟩ | ⟨hjne, hjold⟩
      · cases hpcj
      · exact hinv.relSome j tj hjold hpcj
    · intro j tj hj hpcj
      rcases get?_set_cases hj with ⟨rfl, rfl, -⟩ | ⟨hjne, hjold⟩
      · cases hpcj
      · exact hinv.retSome j tj hjold hpcj
    · intro j tj hj hpcj
      rcases get?_set_cases hj with ⟨rfl, rfl, -⟩ | ⟨hjne, hjold⟩
      · cases hpcj
      · exact hinv.doneRes j tj hjold hpcj
  | recheckSome i t p ht hpc hsl =>
    refine ⟨hinv.mem, hinv.nodead, ?_, ?_, ?_, ?_, ?_, ?_⟩
    · intro j k tj tk hj hk hcj hck
      rcases get?_set_cases hj with ⟨rfl, rfl, -⟩ | ⟨hjne, hjold⟩
      · rcases get?_set_cases hk with ⟨rfl, rfl, -⟩ | ⟨hkne, hkold⟩
        · rfl
        · have := hinv.mutex k j tk t hkold ht hck (by rw [hpc]; rfl)
          exact absurd this hkne
      · rcases get?_set_cases hk with ⟨rfl, rfl, -⟩ | ⟨hkne, hkold⟩
        · have := hinv.mutex j k tj t hjold ht hcj (by rw [hpc]; rfl)
          exact absurd this hjne
        · exact hinv.mutex j k tj tk hjold hkold hcj hck
    · intro hl'
      have := hinv.lockfree hl' i t ht
      rw [hpc] at this
      cases this
    · intro j tj hj hpcj
      rcases get?_set_cases hj with ⟨rfl, rfl, -⟩ | ⟨hjne, hjold⟩
      · cases hpcj
      · exact hinv.allocNone j tj hjold hpcj
    · intro j tj hj hpcj
      rcases get?_set_cases hj with ⟨rfl, rfl, -⟩ | ⟨hjne, hjold⟩
      · rcases hinv.mem with ⟨h1, -, -⟩ | ⟨h1, -, -⟩
        · rw [h1] at hsl; cases hsl
        · exact h1
      · exact hinv.relSome j tj hjold hpcj
    · intro j tj hj hpcj
      rcases get?_set_cases hj with ⟨rfl, rfl, -⟩ | ⟨hjne, hjold⟩
      · cases hpcj
      · exact hinv.retSome j tj hjold hpcj
    · intro j tj hj hpcj
      rcases get?_set_cases hj with ⟨rfl, rfl, -⟩ | ⟨hjne, hjold⟩
      · cases hpcj
      · exact hinv.doneRes j tj hjold hpcj
  | recheckNone i t ht hpc hsl hdd =>
    refine ⟨hinv.mem, hinv.nodead, ?_, ?_, ?_, ?_, ?_, ?_⟩
    · intro j k tj tk hj hk hcj hck
      rcases get?_set_cases hj with ⟨rfl, rfl, -⟩ | ⟨hjne, hjold⟩
      · rcases get?_set_cases hk with ⟨rfl, rfl, -⟩ | ⟨hkne, hkold⟩
        · rfl
        · have := hinv.mutex k j tk t hkold ht hck (by rw [hpc]; rfl)
          exact absurd this hkne
      · rcases get?_set_cases hk with ⟨rfl, rfl, -⟩ | ⟨hkne, hkold⟩
        · have := hinv.mutex j k tj t hjold ht hcj (by rw [hpc]; rfl)
          exact absurd this hjne
        · exact hinv.mutex j k tj tk hjold hkold hcj hck
    · intro hl'
      have := hinv.lockfree hl' i t ht
      rw [hpc] at this
      cases this
    · intro j tj hj hpcj
      rcases get?_set_cases hj with ⟨rfl, rfl, -⟩ | ⟨hjne, hjold⟩
      · exact hsl
      · exact hinv.allocNone j tj hjold hpcj
    · intro j tj hj hpcj
      rcases get?_set_cases hj with ⟨rfl, rfl, -⟩ | ⟨hjne, hjold⟩
      · cases hpcj
      · exact hinv.relSome j tj hjold hpcj
    · intro j tj hj hpcj
      rcases get?_set_cases hj with ⟨rfl, rfl, -⟩ | ⟨hjne, hjold⟩
      · cases hpcj
      · exact hinv.retSome j tj hjold hpcj
    · intro j tj hj hpcj
      rcases get?_set_cases hj with ⟨rfl, rfl, -⟩ | ⟨hjne, hjold⟩
      · cases hpcj
      · exact hinv.doneRes j tj hjold hpcj
  | allocStore i t ht hpc =>
    have hnone : s.slot = none := hinv.allocNone i t ht hpc
    have hmem0 : s.allocCount = 0 ∧ s.nextId = 0 := by
      rcases hinv.mem with ⟨-, h2, h3⟩ | ⟨h1, -, -⟩
      · exact ⟨h2, h3⟩
      · rw [h1] at hnone; cases hnone
    refine ⟨?_, hinv.nodead, ?_, ?_, ?_, ?_, ?_, ?_⟩
    · right
      refine ⟨?_, ?_, ?_⟩
      · show some s.nextId = some 0
        rw [hmem0.2]
      · show s.allocCount + 1 = 1
        rw [hmem0.1]
      · show s.nextId + 1 = 1
        rw [hmem0.2]
    · intro j k tj tk hj hk hcj hck
      rcases get?_set_cases hj with ⟨rfl, rfl, -⟩ | ⟨hjne, hjold⟩
      · rcases get?_set_cases hk with ⟨rfl, rfl, -⟩ | ⟨hkne, hkold⟩
        · rfl
        · have := hinv.mutex k j tk t hkold ht hck (by rw [hpc]; rfl)
          exact absurd this hkne
      · rcases get?_set_cases hk with ⟨rfl, rfl, -⟩ | ⟨hkne, hkold⟩
        · have := hinv.mutex j k tj t hjold ht hcj (by rw [hpc]; rfl)
          exact absurd this hjne
        · exact hinv.mutex j k tj tk hjold hkold hcj hck
    · intro hl'
      have := hinv.lockfree hl' i t ht
      rw [hpc] at this
      cases this
    · intro j tj hj hpcj
      rcases get?_set_cases hj with ⟨rfl, rfl, -⟩ | ⟨hjne, hjold⟩
      · cases hpcj
      · have := hinv.mutex j i tj t hjold ht (by rw [hpcj]; rfl) (by rw [hpc]; rfl)
        exact absurd this hjne
    · intro j tj hj hpcj
      rcases get?_set_cases hj with ⟨rfl, rfl, -⟩ | ⟨hjne, hjold⟩
      · show some s.nextId = some 0
        rw [hmem0.2]
      · have := hinv.relSome j tj hjold hpcj
        rw [hnone] at this
        cases this
    · intro j tj hj hpcj
      rcases get?_set_cases hj with ⟨rfl, rfl, -⟩ | ⟨hjne, hjold⟩
      · cases hpcj
      · have := hinv.retSome j tj hjold hpcj
        rw [hnone] at this
        cases this
    · intro j tj hj hpcj
      rcases get?_set_cases hj with ⟨rfl, rfl, -⟩ | ⟨hjne, hjold⟩
      · cases hpcj
      · have := (hinv.doneRes j tj hjold hpcj).1
        rw [hnone] at this
        cases this
  | lockRel i t ht hpc =>
    refine ⟨hinv.mem, hinv.nodead, ?_, ?_, ?_, ?_, ?_, ?_⟩
    · intro j k tj tk hj hk hcj hck
      rcases get?_set_cases hj with ⟨rfl, rfl, -⟩ | ⟨hjne, hjold⟩
      · simp [inCS] at hcj
      · rcases get?_set_cases hk with ⟨rfl, rfl, -⟩ | ⟨hkne, hkold⟩
        · simp [inCS] at hck
        · exact hinv.mutex j k tj tk hjold hkold hcj hck
    · intro _ j tj hj
      rcases get?_set_cases hj with ⟨rfl, rfl, -⟩ | ⟨hjne, hjold⟩
      · rfl
      · cases hc : inCS tj.pc with
        | false => rfl
        | true =>
          have := hinv.mutex j i tj t hjold ht hc (by rw [hpc]; rfl)
          exact absurd this hjne
    · intro j tj hj hpcj
      rcases get?_set_cases hj with ⟨rfl, rfl, -⟩ | ⟨hjne, hjold⟩
      · cases hpcj
      · exact hinv.allocNone j tj hjold hpcj
    · intro j tj hj hpcj
      rcases get?_set_cases hj with ⟨rfl, rfl, -⟩ | ⟨hjne, hjold⟩
      · cases hpcj
      · exact hinv.relSome j tj hjold hpcj
    · intro j tj hj hpcj
      rcases get?_set_cases hj with ⟨rfl, rfl, -⟩ | ⟨hjne, hjold⟩
      · exact hinv.relSome j t ht hpc
      · exact hinv.retSome j tj hjold hpcj
    · intro j tj hj hpcj
      rcases get?_set_cases hj with ⟨rfl, rfl, -⟩ | ⟨hjne, hjold⟩
      · cases hpcj
      · exact hinv.doneRes j tj hjold hpcj
  | retread i t p ht hpc hsl =>
    have h0 : s.slot = some 0 := hinv.retSome i t ht hpc
    have hp0 : p = 0 := by
      rw [hsl] at h0
      injection h0
    refine ⟨hinv.mem, hinv.nodead, ?_, ?_, ?_, ?_, ?_, ?_⟩
    · intro j k tj tk hj hk hcj hck
      rcases get?_set_cases hj with ⟨rfl, rfl, -⟩ | ⟨hjne, hjold⟩
      · simp [inCS] at hcj
      · rcases get?_set_cases hk with ⟨rfl, rfl, -⟩ | ⟨hkne, hkold⟩
        · simp [inCS] at hck
        · exact hinv.mutex j k tj tk hjold hkold hcj hck
    · intro hl j tj hj
      rcases get?_set_cases hj with ⟨rfl, rfl, -⟩ | ⟨hjne, hjold⟩
      · rfl
      · exact hinv.lockfree hl j tj hjold
    · intro j tj hj hpcj
      rcases get?_set_cases hj with ⟨rfl, rfl, -⟩ | ⟨hjne, hjold⟩
      · cases hpcj
      · exact hinv.allocNone j tj hjold hpcj
    · intro j tj hj hpcj
      rcases get?_set_cases hj with ⟨rfl, rfl, -⟩ | ⟨hjne, hjold⟩
      · cases hpcj
      · exact hinv.relSome j tj hjold hpcj
    · intro j tj hj hpcj
      rcases get?_set_cases hj with ⟨rfl, rfl, -⟩ | ⟨hjne, hjold⟩
      · cases hpcj
      · exact hinv.retSome j tj hjold hpcj
    · intro j tj hj hpcj
      rcases get?_set_cases hj with ⟨rfl, rfl, -⟩ | ⟨hjne, hjold⟩
      · refine ⟨h0, ?_⟩
        show some p = some 0
        rw [hp0]
      · exact hinv.doneRes j tj hjold hpcj

/-- Every reachable state satisfies the invariant. -/
theorem Inv_reachable (n : Nat) (s : CState) (h : Reachable n s) : Inv s := by
  induction h with
  | refl => exact Inv_init n
  | tail _ st ih => exact Inv_step _ _ ih st

/-- Steps never change the number of threads. -/
theorem reachable_length (n : Nat) (s : CState) (h : Reachable n s) :
    s.threads.length = n := by
  induction h with
  | refl => simp [initCState]
  | tail _ st ih => cases st <;> simpa [List.length_set] using ih

/-- All threads have finished their GetInstance call. -/
def allDone (s : CState) : Bool :=
  s.threads.all fun t => t.pc == PC.done

/-- All threads returned the same reference: instance 0. -/
def resultsAllZero (s : CState) : Bool :=
  s.threads.all fun t => t.result == some 0

/-- C9: 8 threads each call GetInstance once on a coordinator whose guard
provides mutual exclusion (mutex or atomic-spin strategy); in every
interleaving in which all 8 calls have completed, exactly one allocation
has occurred and all 8 calls returned the same instance identity. -/
theorem claim9_contended_single_allocation (s : CState)
    (hr : Reachable 8 s) (hd : allDone s = true) :
    s.allocCount = 1 ∧ resultsAllZero s = true := by
  have hinv := Inv_reachable 8 s hr
  have hlen := reachable_length 8 s hr
  obtain ⟨t0, ht0⟩ : ∃ t0, s.threads.get? 0 = some t0 := by
    cases h0 : s.threads.get? 0 with
    | some t => exact ⟨t, rfl⟩
    | none =>
      rw [List.get?_eq_none] at h0
      omega
  have hd0 : t0.pc = .done := by
    have := List.all_eq_true.mp hd t0 (List.get?_mem ht0)
    simpa using this
  have hslot : s.slot = some 0 := (hinv.doneRes 0 t0 ht0 hd0).1
  have hcount : s.allocCount = 1 := by
    rcases hinv.mem with ⟨h1, -, -⟩ | ⟨-, h2, -⟩
    · rw [h1] at hslot; cases hslot
    · exact h2
  refine ⟨hcount, ?_⟩
  rw [resultsAllZero, List.all_eq_true]
  intro t htmem
  obtain ⟨j, hj⟩ := List.mem_iff_get?.mp htmem
  have hdj : t.pc = .done := by
    have := List.all_eq_true.mp hd t htmem
    simpa using this
  have := (hinv.doneRes j t hj hdj).2
  simpa using this

/-- Executable mirror of Step: run one atomic statement of thread i, or
leave the state unchanged when that thread is blocked or finished. -/
def threadStep (s : CState) (i : Nat) : CState :=
  match s.threads.get? i with
  | none => s
  | some t =>
    match t.pc with
    | .checkFast =>
      match s.slot with
      | some _ => { s with threads := s.threads.set i { t with pc := .retRead } }
      | none => { s with threads := s.threads.set i { t with pc := .acquireLock } }
    | .acquireLock =>
      if s.lockHeld then s
      else { s with lockHeld := true, threads := s.threads.set i { t with pc := .recheck } }
    | .recheck =>
      if s.wasDestroyed then s
      else
        match s.slot with
        | some _ => { s with threads := s.threads.set i { t with pc := .releaseLock } }
        | none => { s with threads := s.threads.set i { t with pc := .allocate } }
    | .allocate =>
      { s with
        slot := some s.nextId
        nextId := s.nextId + 1
        allocCount := s.allocCount + 1
        threads := s.threads.set i { t with pc := .releaseLock } }
    | .releaseLock =>
      { s with lockHeld := false, threads := s.threads.set i { t with pc := .retRead } }
    | .retRead =>
      match s.slot with
      | some p => { s with threads := s.threads.set i { pc := .done, result := some p } }
      | none => s
    | .done => s

/-- Each executable step either stalls or performs a Step transition. -/
theorem threadStep_sound (s : CState) (i : Nat) :
    threadStep s i = s ∨ Step s (threadStep s i) := by
  cases ht : s.threads.get? i with
  | none =>
    left
    unfold threadStep
    rw [ht]
  | some t =>
    obtain ⟨tpc, tres⟩ := t
    cases tpc with
    | checkFast =>
      cases hsl : s.slot with
      | some p =>
        right
        have he : threadStep s i
            = { s with threads := s.threads.set i ⟨.retRead, tres⟩ } := by
          unfold threadStep
          rw [ht, hsl]
        rw [he]
        exact Step.fastSome s i ⟨.checkFast, tres⟩ p ht rfl hsl
      | none =>
        right
        have he : threadStep s i
            = { s with threads := s.threads.set i ⟨.acquireLock, tres⟩ } := by
          unfold threadStep
          rw [ht, hsl]
        rw [he]
        exact Step.fastNone s i ⟨.checkFast, tres⟩ ht rfl hsl
    | acquireLock =>
      cases hl : s.lockHeld with
      | true =>
        left
        unfold threadStep
        rw [ht, hl]
        rfl
      | false =>
        right
        have he : threadStep s i
            = { s with lockHeld := true, threads := s.threads.set i ⟨.recheck, tres⟩ } := by
          unfold threadStep
          rw [ht, hl]
          rfl
        rw [he]
        exact Step.lockAcq s i ⟨.acquireLock, tres⟩ ht rfl hl
    | recheck =>
      cases hdd : s.wasDestroyed with
      | true =>
        left
        unfold threadStep
        rw [ht, hdd]
        rfl
      | false =>
        cases hsl : s.slot with
        | some p =>
          right
          have he : threadStep s i
              = { s with threads := s.threads.set i ⟨.releaseLock, tres⟩ } := by
            unfold threadStep
            rw [ht, hdd, hsl]
            rfl
          rw [he]
          exact Step.recheckSome s i ⟨.recheck, tres⟩ p ht rfl hsl
        | none =>
          right
          have he : threadStep s i
              = { s with threads := s.threads.set i ⟨.allocate, tres⟩ } := by
            unfold threadStep
            rw [ht, hdd, hsl]
            rfl
          rw [he]
          exact Step.recheckNone s i ⟨.recheck, tres⟩ ht rfl hsl hdd
    | allocate =>
      right
      have he : threadStep s i
          = { s with
              slot := some s.nextId
              nextId := s.nextId + 1
              allocCount := s.allocCount + 1
              threads := s.threads.set i ⟨.releaseLock, tres⟩ } := by
        unfold threadStep
        rw [ht]
      rw [he]
      exact Step.allocStore s i ⟨.allocate, tres⟩ ht rfl
    | releaseLock =>
      right
      have he : threadStep s i
          = { s with lockHeld := false, threads := s.threads.set i ⟨.retRead, tres⟩ } := by
        unfold threadStep
        rw [ht]
      rw [he]
      exact Step.lockRel s i ⟨.releaseLock, tres⟩ ht rfl
    | retRead =>
      cases hsl : s.slot with
      | some p =>
        right
        have he : threadStep s i
            = { s with threads := s.threads.set i ⟨.done, some p⟩ } := by
          unfold threadStep
          rw [ht, hsl]
        rw [he]
        exact Step.retread s i ⟨.retRead, tres⟩ p ht rfl hsl
      | none =>
        left
        unfold threadStep
        rw [ht, hsl]
    | done =>
      left
      unfold threadStep
      rw [ht]

/-- Run a schedule: a list of thread ids, each executing one statement. -/
def runSched (sched : List Nat) (s : CState) : CState :=
  sched.foldl threadStep s

/-- Running any schedule only moves along Step transitions. -/
theorem runSched_reflTransGen (sched : List Nat) (s : CState) :
    Relation.ReflTransGen Step s (runSched sched s) := by
  induction sched generalizing s with
  | nil => exact .refl
  | cons i is ih =>
    have h1 : Relation.ReflTransGen Step s (threadStep s i) := by
      rcases threadStep_sound s i with he | hst
      · rw [he]
      · exact Relation.ReflTransGen.single hst
    exact h1.trans (ih (threadStep s i))

/-- The final state of any schedule on the initial state is reachable. -/
theorem runSched_reachable (n : Nat) (sched : List Nat) :
    Reachable n (runSched sched (initCState n)) :=
  runSched_reflTransGen sched (initCState n)

/-- A schedule in which thread 0 creates the instance and the other seven
threads then each take the fast path. -/
def demoSched : List Nat :=
  [0, 0, 0, 0, 0, 0, 1, 1, 2, 2, 3, 3, 4, 4, 5, 5, 6, 6, 7, 7]

/-- Witness for C9: a concrete completed 8-thread interleaving. -/
theorem claim9_contended_single_allocation_witness :
    allDone (runSched demoSched (initCState 8)) = true
    ∧ (runSched demoSched (initCState 8)).allocCount = 1
    ∧ resultsAllZero (runSched demoSched (initCState 8)) = true := by
  have h := claim9_contended_single_allocation (runSched demoSched (initCState 8))
    (runSched_reachable 8 demoSched) (by decide)
  exact ⟨by decide, h.1, h.2⟩

/-- C10: under standard disposal, every access after teardown - not only
the first - raises the dead-instance error, since the throwing handler
prevents the flag-clearing statement from running; the coordinator state
never changes again, so no further allocation ever occurs. -/
theorem claim10_dead_error_persists (s : SingletonState) (bs : List Bool) :
    (runSeq .standard bs (DestroyInstance s).1).1
      = List.replicate bs.length (Except.error SingletonError.deadInstanceAccessed)
    ∧ (runSeq .standard bs (DestroyInstance s).1).2 = (DestroyInstance s).1 := by
  rw [standard_dead_run bs (DestroyInstance s).1 rfl rfl]
  exact ⟨rfl, rfl⟩

end Pattern
